import Mathlib

/-!
Shallow embedding of the data-access layer (`src/server/db.ts`), the drizzle
schema (`src/unnamed/part_000`), the environment allow-list parsing
(`src/unnamed/part_002` / the env module), and the quest-board client logic
(`src/unnamed/part_001`, `src/client/src/pages/Quest.tsx`) of the
jookebawx/samueruchan repository, together with proofs of the frozen claims
about it.

Conventions of the embedding:
* a SQLite table is a `List` of row structures; `AUTOINCREMENT` ids and
  `unixepoch()*1000` timestamps are passed in explicitly as `freshId` /
  `now` / `dbNow` arguments;
* the module-level nullable `_db` handle is an `Option Db` argument: `none`
  models "database not initialized";
* `async` functions that `throw` are embedded as `Except String _`;
* SQL `ORDER BY` is embedded as a stable insertion sort (`orderBy`), which
  matches scan order among equal keys.
-/

/-- SQL ORDER BY: stable insertion of an element in front of the first
element it compares `le` to. -/
def insertOrdered {α : Type} (le : α → α → Bool) (x : α) : List α → List α
  | [] => [x]
  | y :: ys => if le x y then x :: y :: ys else y :: insertOrdered le x ys

/-- SQL ORDER BY over a whole list: stable insertion sort by `le`. -/
def orderBy {α : Type} (le : α → α → Bool) : List α → List α
  | [] => []
  | x :: xs => insertOrdered le x (orderBy le xs)

theorem mem_insertOrdered {α : Type} (le : α → α → Bool) (x : α) (l : List α)
    (a : α) : a ∈ insertOrdered le x l ↔ a ∈ x :: l := by
  induction l with
  | nil => simp [insertOrdered]
  | cons y ys ih =>
    simp only [insertOrdered]
    split
    · simp
    · simp only [List.mem_cons, ih]
      tauto

theorem perm_insertOrdered {α : Type} (le : α → α → Bool) (x : α)
    (l : List α) : List.Perm (insertOrdered le x l) (x :: l) := by
  induction l with
  | nil => simp [insertOrdered]
  | cons y ys ih =>
    simp only [insertOrdered]
    split
    · exact List.Perm.refl _
    · exact (List.Perm.cons y ih).trans (List.Perm.swap x y ys)

theorem perm_orderBy {α : Type} (le : α → α → Bool) (l : List α) :
    List.Perm (orderBy le l) l := by
  induction l with
  | nil => exact List.Perm.refl _
  | cons x xs ih =>
    exact (perm_insertOrdered le x (orderBy le xs)).trans (List.Perm.cons x ih)

theorem pairwise_insertOrdered {α : Type} (le : α → α → Bool)
    (htot : ∀ a b, le a b = true ∨ le b a = true)
    (htrans : ∀ a b c, le a b = true → le b c = true → le a c = true)
    (x : α) (l : List α) (h : l.Pairwise (fun a b => le a b = true)) :
    (insertOrdered le x l).Pairwise (fun a b => le a b = true) := by
  induction l with
  | nil => simp [insertOrdered]
  | cons y ys ih =>
    simp only [insertOrdered]
    rcases List.pairwise_cons.mp h with ⟨hy, hys⟩
    split
    · rename_i hxy
      refine List.pairwise_cons.mpr ⟨?_, h⟩
      intro b hb
      rcases List.mem_cons.mp hb with rfl | hb
      · exact hxy
      · exact htrans x y b hxy (hy b hb)
    · rename_i hxy
      have hyx : le y x = true := by
        rcases htot x y with hc | hc
        · exact absurd hc hxy
        · exact hc
      refine List.pairwise_cons.mpr ⟨?_, ih hys⟩
      intro b hb
      rcases List.mem_cons.mp ((mem_insertOrdered le x ys b).mp hb) with rfl | hb'
      · exact hyx
      · exact hy b hb'

theorem pairwise_orderBy {α : Type} (le : α → α → Bool)
    (htot : ∀ a b, le a b = true ∨ le b a = true)
    (htrans : ∀ a b c, le a b = true → le b c = true → le a c = true)
    (l : List α) : (orderBy le l).Pairwise (fun a b => le a b = true) := by
  induction l with
  | nil => simp [orderBy]
  | cons x xs ih => exact pairwise_insertOrdered le htot htrans x _ ih

/-- The head of a sorted list is `le`-below every member of the original
list (needs reflexivity of `le` for the head itself). -/
theorem head_orderBy_le {α : Type} (le : α → α → Bool)
    (htot : ∀ a b, le a b = true ∨ le b a = true)
    (htrans : ∀ a b c, le a b = true → le b c = true → le a c = true)
    (hrefl : ∀ a, le a a = true)
    (l : List α) (x : α) (t : List α) (hsort : orderBy le l = x :: t) :
    ∀ y ∈ l, le x y = true := by
  intro y hy
  have hperm := perm_orderBy le l
  rw [hsort] at hperm
  have hy' : y ∈ x :: t := hperm.mem_iff.mpr hy
  rcases List.mem_cons.mp hy' with rfl | hy'
  · exact hrefl y
  · have hp := pairwise_orderBy le htot htrans l
    rw [hsort] at hp
    exact (List.pairwise_cons.mp hp).1 y hy'

/-! ## Schema rows (src/unnamed/part_000, plus the runtime columns added by
`ensureQuestTables` in src/server/db.ts) -/

/-- A row of the `users` table. -/
structure UserRow where
  id : Nat
  openId : String
  name : Option String
  email : Option String
  avatarUrl : Option String
  loginMethod : Option String
  role : String
  createdAt : Nat
  updatedAt : Nat
  lastSignedIn : Nat
deriving Repr, DecidableEq

/-- A row of the `case_studies` table. The enum-typed `category` column is
embedded as a plain string. -/
structure CaseStudyRow where
  id : Nat
  userId : Nat
  title : String
  description : String
  thumbnailUrl : Option String
  thumbnailKey : Option String
  category : String
  tools : String
  challenge : String
  solution : String
  steps : String
  impact : Option String
  tags : String
  isRecommended : Nat
  createdAt : Nat
  updatedAt : Nat
deriving Repr, DecidableEq

/-- A row of the `favorites` table (unique index on (userId, caseStudyId)). -/
structure FavoriteRow where
  id : Nat
  userId : Nat
  caseStudyId : Nat
  createdAt : Nat
deriving Repr, DecidableEq

/-- A row of the `reports` table (unique index on (userId, caseStudyId)). -/
structure ReportRow where
  id : Nat
  userId : Nat
  caseStudyId : Nat
  createdAt : Nat
deriving Repr, DecidableEq

/-- A row of the `quests` table as it exists at runtime: the text `status`
column plus the `solved_answer_id` / `solver_user_id` columns added by the
`ALTER TABLE` statements in `ensureQuestTables`. -/
structure QuestRow where
  id : Nat
  userId : Nat
  title : String
  content : String
  status : String
  solvedAnswerId : Option Nat
  solverUserId : Option Nat
  createdAt : Nat
  updatedAt : Nat
  closedAt : Option Nat
deriving Repr, DecidableEq

/-- A row of the `quest_answers` table. -/
structure QuestAnswerRow where
  id : Nat
  questId : Nat
  userId : Nat
  content : String
  createdAt : Nat
  updatedAt : Nat
deriving Repr, DecidableEq

/-- The whole relational store. -/
structure Db where
  users : List UserRow
  caseStudies : List CaseStudyRow
  favorites : List FavoriteRow
  reports : List ReportRow
  quests : List QuestRow
  questAnswers : List QuestAnswerRow
deriving Repr, DecidableEq

/-! ## Schema migration shims and the lazy database handle
(src/server/db.ts lines 34-185) -/

/-- The data-visible effect of `ensureQuestTables` (src/server/db.ts): the
`CREATE TABLE` / `ALTER TABLE` / `CREATE INDEX` statements do not change
row data, but the backward-compatibility statement
`UPDATE quests SET status = 'unsolved' WHERE status = 'closed'` rewrites
every legacy `closed` status to `unsolved`.  (`ensureAvatarColumn` and
`ensureReportsTable` are schema-only and leave row data unchanged.) -/
def ensureQuestTables (db : Db) : Db :=
  { db with
    quests := db.quests.map fun q =>
      if q.status == "closed" then { q with status := "unsolved" } else q }

/-- Lazily return the cached database instance (src/server/db.ts `getDb`):
`none` when `initDb` was never called, otherwise the instance after the
idempotent migration shims have run. -/
def getDb : Option Db → Option Db
  | none => none
  | some db => some (ensureQuestTables db)

theorem ensureQuestTables_users (db : Db) :
    (ensureQuestTables db).users = db.users := rfl

theorem ensureQuestTables_caseStudies (db : Db) :
    (ensureQuestTables db).caseStudies = db.caseStudies := rfl

theorem ensureQuestTables_favorites (db : Db) :
    (ensureQuestTables db).favorites = db.favorites := rfl

theorem ensureQuestTables_reports (db : Db) :
    (ensureQuestTables db).reports = db.reports := rfl

theorem ensureQuestTables_questAnswers (db : Db) :
    (ensureQuestTables db).questAnswers = db.questAnswers := rfl

theorem ensureQuestTables_idem (db : Db) :
    ensureQuestTables (ensureQuestTables db) = ensureQuestTables db := by
  simp only [ensureQuestTables, List.map_map]
  congr 1
  apply List.map_congr_left
  intro q _
  by_cases h : q.status == "closed" <;> simp [Function.comp, h]

theorem ensureQuestTables_set_favorites (db : Db) (l : List FavoriteRow) :
    ensureQuestTables { db with favorites := l }
      = { ensureQuestTables db with favorites := l } := rfl

theorem ensureQuestTables_set_reports (db : Db) (l : List ReportRow) :
    ensureQuestTables { db with reports := l }
      = { ensureQuestTables db with reports := l } := rfl

/-! ## Environment allow-list (the env module, src/unnamed/part_002) -/

/-- Comma splitting of a character list, mirroring JavaScript
`value.split(",")`: an empty input yields one empty item, every comma
starts a new item. -/
def splitCommaChars : List Char → List (List Char)
  | [] => [[]]
  | c :: cs =>
    match splitCommaChars cs with
    | [] => [[c]]
    | r :: rs => if c = ',' then [] :: r :: rs else (c :: r) :: rs

/-- Whitespace trimming of a character list, mirroring JavaScript
`item.trim()`. -/
def trimChars (cs : List Char) : List Char :=
  ((cs.dropWhile Char.isWhitespace).reverse.dropWhile Char.isWhitespace).reverse

/-- Split a comma-separated value, trimming blanks and dropping empty
items (`parseCsvList` in the env module:
`value.split(",").map(item => item.trim()).filter(Boolean)`). -/
def parseCsvList (value : String) : List String :=
  (((splitCommaChars value.data).map fun cs => String.mk (trimChars cs)).filter
    fun item => item ≠ "")

/-- `ENV.ownerOpenIds`: the configured owner allow-list, read from the
comma-separated OWNER_OPEN_IDS value, falling back to the single
OWNER_OPEN_ID value. -/
def ownerOpenIds (ownerOpenIdsRaw ownerOpenIdRaw : String) : List String :=
  let fromList := parseCsvList ownerOpenIdsRaw
  if fromList.length > 0 then fromList
  else
    let single := String.mk (trimChars ownerOpenIdRaw.data)
    if single ≠ "" then [single] else []

/-! ## User queries (src/server/db.ts lines 187-300) -/

/-- The `InsertUser` shape accepted by `upsertUser`.  A text field is
`Option (Option String)`: the outer `none` is JavaScript `undefined`
(field absent), `some none` is an explicit `null`. -/
structure InsertUser where
  openId : String
  name : Option (Option String) := none
  email : Option (Option String) := none
  avatarUrl : Option (Option String) := none
  loginMethod : Option (Option String) := none
  lastSignedIn : Option Nat := none
  role : Option String := none
deriving Repr, DecidableEq

/-- Upsert a user keyed on `openId` (src/server/db.ts `upsertUser`).
An empty `openId` (JavaScript-falsy) throws; an uninitialized database is
a logged no-op (`.ok none`).  When `role` is not supplied and the openId is
in the owner allow-list, the row is written with role `admin`; otherwise an
inserted row gets the column default `user` and an updated row's role is
left untouched.  `now` stands for the `Date.now()` calls and `dbNow` for
the database-side column defaults. -/
def upsertUser (ownerOpenIdsRaw ownerOpenIdRaw : String) (db? : Option Db)
    (user : InsertUser) (now freshId dbNow : Nat) : Except String (Option Db) :=
  if user.openId == "" then .error "User openId is required for upsert"
  else
    match getDb db? with
    | none => .ok none
    | some db =>
      let roleValue : Option String :=
        match user.role with
        | some r => some r
        | none =>
          if (ownerOpenIds ownerOpenIdsRaw ownerOpenIdRaw).contains user.openId
          then some "admin" else none
      -- `if (!values.lastSignedIn) values.lastSignedIn = Date.now()`:
      -- a missing or JavaScript-falsy (0) value is replaced by now.
      let lastSignedInValue : Nat :=
        match user.lastSignedIn with
        | some t => if t == 0 then now else t
        | none => now
      let updateSetEmpty : Bool :=
        user.name == none && user.email == none && user.avatarUrl == none
          && user.loginMethod == none && user.lastSignedIn == none
          && roleValue == none
      if db.users.any (fun u => u.openId == user.openId) then
        -- onConflictDoUpdate on users.openId: apply the update set.
        .ok (some { db with
          users := db.users.map fun u =>
            if u.openId == user.openId then
              if updateSetEmpty then { u with lastSignedIn := now }
              else
                { u with
                  name := (user.name).getD u.name
                  email := (user.email).getD u.email
                  avatarUrl := (user.avatarUrl).getD u.avatarUrl
                  loginMethod := (user.loginMethod).getD u.loginMethod
                  lastSignedIn := (user.lastSignedIn).getD u.lastSignedIn
                  role := roleValue.getD u.role }
            else u })
      else
        -- plain insert: missing columns take the schema defaults
        -- (`name`/`email`/... default null, `role` defaults to "user").
        .ok (some { db with
          users := db.users ++
            [{ id := freshId
               openId := user.openId
               name := (user.name).getD none
               email := (user.email).getD none
               avatarUrl := (user.avatarUrl).getD none
               loginMethod := (user.loginMethod).getD none
               role := roleValue.getD "user"
               createdAt := dbNow
               updatedAt := dbNow
               lastSignedIn := lastSignedInValue }] })

/-- Look a user up by openId (src/server/db.ts `getUserByOpenId`);
`none` both when the database is unavailable and when no row matches. -/
def getUserByOpenId (db? : Option Db) (openId : String) : Option UserRow :=
  match getDb db? with
  | none => none
  | some db => db.users.find? (fun u => u.openId == openId)

/-- The public projection selected by `getUserPublicById`. -/
structure UserPublicRow where
  id : Nat
  name : Option String
  avatarUrl : Option String
  createdAt : Nat
deriving Repr, DecidableEq

/-- Look up the public view of a user (src/server/db.ts
`getUserPublicById`). -/
def getUserPublicById (db? : Option Db) (userId : Nat) : Option UserPublicRow :=
  match getDb db? with
  | none => none
  | some db =>
    (db.users.find? (fun u => u.id == userId)).map fun u =>
      { id := u.id, name := u.name, avatarUrl := u.avatarUrl
        createdAt := u.createdAt }

/-! ## Case-study queries (src/server/db.ts lines 302-395) -/

/-- The denormalized list row returned by `getAllCaseStudies`: the case
study spread together with author name/avatar from the left join and the
per-case report count. -/
structure CaseStudyListRow where
  caseStudy : CaseStudyRow
  authorName : Option String
  authorAvatarUrl : Option String
  reportCount : Nat
deriving Repr, DecidableEq

/-- List every case study (src/server/db.ts `getAllCaseStudies`), ordered
by creation time ascending, left-joined with the author row and annotated
with the number of reports against it.  An uninitialized database yields
the empty list. -/
def getAllCaseStudies (db? : Option Db) : List CaseStudyListRow :=
  match getDb db? with
  | none => []
  | some db =>
    let sorted := orderBy (fun a b => decide (a.createdAt ≤ b.createdAt))
      db.caseStudies
    sorted.map fun c =>
      { caseStudy := c
        authorName := (db.users.find? (fun u => u.id == c.userId)).bind
          UserRow.name
        authorAvatarUrl := (db.users.find? (fun u => u.id == c.userId)).bind
          UserRow.avatarUrl
        reportCount :=
          (db.reports.filter (fun r => r.caseStudyId == c.id)).length }

/-- Look a case study up by id (src/server/db.ts `getCaseStudyById`). -/
def getCaseStudyById (db? : Option Db) (id : Nat) : Option CaseStudyRow :=
  match getDb db? with
  | none => none
  | some db => db.caseStudies.find? (fun c => c.id == id)

/-- The `InsertCaseStudy` shape: `userId` and the text columns are
required, nullable and defaulted columns are optional. -/
structure InsertCaseStudy where
  userId : Nat
  title : String
  description : String
  thumbnailUrl : Option String := none
  thumbnailKey : Option String := none
  category : String
  tools : String
  challenge : String
  solution : String
  steps : String
  impact : Option String := none
  tags : String
  isRecommended : Option Nat := none
  createdAt : Option Nat := none
  updatedAt : Option Nat := none
deriving Repr, DecidableEq

/-- The row a `db.insert(caseStudies).values(data)` stores: absent optional
columns take the schema defaults (`freshId` for the autoincremented id,
`dbNow` for the timestamp defaults, 0 for `isRecommended`). -/
def caseStudyRowOfInsert (data : InsertCaseStudy) (freshId dbNow : Nat) :
    CaseStudyRow :=
  { id := freshId
    userId := data.userId
    title := data.title
    description := data.description
    thumbnailUrl := data.thumbnailUrl
    thumbnailKey := data.thumbnailKey
    category := data.category
    tools := data.tools
    challenge := data.challenge
    solution := data.solution
    steps := data.steps
    impact := data.impact
    tags := data.tags
    isRecommended := data.isRecommended.getD 0
    createdAt := data.createdAt.getD dbNow
    updatedAt := data.updatedAt.getD dbNow }

/-- Create a case study (src/server/db.ts `createCaseStudy`).  The insert
does not report the new row's id; instead the code re-selects "the last
inserted record by userId and timestamp": the same user's rows ordered by
`createdAt` descending, limit 1, falling back to 0 when that lookup is
empty (`inserted?.id || 0`). -/
def createCaseStudy (db? : Option Db) (data : InsertCaseStudy)
    (freshId dbNow : Nat) : Except String (Nat × Db) :=
  match getDb db? with
  | none => .error "Database not available"
  | some db =>
    let db' := { db with
      caseStudies := db.caseStudies ++ [caseStudyRowOfInsert data freshId dbNow] }
    let candidates := db'.caseStudies.filter (fun c => c.userId == data.userId)
    let insertId :=
      match orderBy (fun a b => decide (b.createdAt ≤ a.createdAt)) candidates with
      | [] => 0
      | r :: _ => r.id
    .ok (insertId, db')

/-- List a user's own case studies (src/server/db.ts `getUserCaseStudies`),
ordered by creation time ascending. -/
def getUserCaseStudies (db? : Option Db) (userId : Nat) : List CaseStudyRow :=
  match getDb db? with
  | none => []
  | some db =>
    orderBy (fun a b => decide (a.createdAt ≤ b.createdAt))
      (db.caseStudies.filter (fun c => c.userId == userId))

/-! ## Quest queries (src/server/db.ts lines 397-563) -/

/-- The denormalized list row returned by `getAllQuests`: the quest spread
together with author name/avatar and the per-quest answer count. -/
structure QuestListRow where
  quest : QuestRow
  authorName : Option String
  authorAvatarUrl : Option String
  answerCount : Nat
deriving Repr, DecidableEq

/-- List every quest (src/server/db.ts `getAllQuests`), ordered by creation
time descending, left-joined with the author row and annotated with the
number of answers. -/
def getAllQuests (db? : Option Db) : List QuestListRow :=
  match getDb db? with
  | none => []
  | some db =>
    let sorted := orderBy (fun a b => decide (b.createdAt ≤ a.createdAt))
      db.quests
    sorted.map fun q =>
      { quest := q
        authorName := (db.users.find? (fun u => u.id == q.userId)).bind
          UserRow.name
        authorAvatarUrl := (db.users.find? (fun u => u.id == q.userId)).bind
          UserRow.avatarUrl
        answerCount :=
          (db.questAnswers.filter (fun a => a.questId == q.id)).length }

/-- The denormalized detail row returned by `getQuestById`. -/
structure QuestDetailRow where
  quest : QuestRow
  authorName : Option String
  authorAvatarUrl : Option String
deriving Repr, DecidableEq

/-- Look a quest up by id with its author fields (src/server/db.ts
`getQuestById`). -/
def getQuestById (db? : Option Db) (id : Nat) : Option QuestDetailRow :=
  match getDb db? with
  | none => none
  | some db =>
    (db.quests.find? (fun q => q.id == id)).map fun q =>
      { quest := q
        authorName := (db.users.find? (fun u => u.id == q.userId)).bind
          UserRow.name
        authorAvatarUrl := (db.users.find? (fun u => u.id == q.userId)).bind
          UserRow.avatarUrl }

/-- The denormalized answer row returned by `getQuestAnswers`. -/
structure QuestAnswerListRow where
  id : Nat
  questId : Nat
  userId : Nat
  content : String
  createdAt : Nat
  updatedAt : Nat
  authorName : Option String
  authorAvatarUrl : Option String
deriving Repr, DecidableEq

/-- List a quest's answers (src/server/db.ts `getQuestAnswers`), ordered by
creation time ascending, left-joined with the author row. -/
def getQuestAnswers (db? : Option Db) (questId : Nat) :
    List QuestAnswerListRow :=
  match getDb db? with
  | none => []
  | some db =>
    let rows := db.questAnswers.filter (fun a => a.questId == questId)
    let sorted := orderBy (fun a b => decide (a.createdAt ≤ b.createdAt)) rows
    sorted.map fun a =>
      { id := a.id
        questId := a.questId
        userId := a.userId
        content := a.content
        createdAt := a.createdAt
        updatedAt := a.updatedAt
        authorName := (db.users.find? (fun u => u.id == a.userId)).bind
          UserRow.name
        authorAvatarUrl := (db.users.find? (fun u => u.id == a.userId)).bind
          UserRow.avatarUrl }

/-- The `InsertQuest` shape. -/
structure InsertQuest where
  userId : Nat
  title : String
  content : String
  status : Option String := none
  createdAt : Option Nat := none
  updatedAt : Option Nat := none
deriving Repr, DecidableEq

/-- The row a quest insert stores: `status` defaults to `open`, the
nullable solver columns to null. -/
def questRowOfInsert (data : InsertQuest) (freshId dbNow : Nat) : QuestRow :=
  { id := freshId
    userId := data.userId
    title := data.title
    content := data.content
    status := data.status.getD "open"
    solvedAnswerId := none
    solverUserId := none
    createdAt := data.createdAt.getD dbNow
    updatedAt := data.updatedAt.getD dbNow
    closedAt := none }

/-- Create a quest (src/server/db.ts `createQuest`): the same
insert-then-re-select pattern as `createCaseStudy`. -/
def createQuest (db? : Option Db) (data : InsertQuest) (freshId dbNow : Nat) :
    Except String (Nat × Db) :=
  match getDb db? with
  | none => .error "Database not available"
  | some db =>
    let db' := { db with
      quests := db.quests ++ [questRowOfInsert data freshId dbNow] }
    let candidates := db'.quests.filter (fun q => q.userId == data.userId)
    let insertId :=
      match orderBy (fun a b => decide (b.createdAt ≤ a.createdAt)) candidates with
      | [] => 0
      | r :: _ => r.id
    .ok (insertId, db')

/-- Look a quest answer up by id (src/server/db.ts `getQuestAnswerById`);
the selected columns are exactly the row's columns. -/
def getQuestAnswerById (db? : Option Db) (id : Nat) : Option QuestAnswerRow :=
  match getDb db? with
  | none => none
  | some db => db.questAnswers.find? (fun a => a.id == id)

/-- Close a quest (src/server/db.ts `closeQuest`): unconditionally set the
status, solver columns and timestamps of every row with the given id.  The
`QuestClosedStatus` union type is embedded as a plain string. -/
def closeQuest (db? : Option Db) (id : Nat) (status : String)
    (solvedAnswerId solverUserId : Option Nat) (now : Nat) :
    Except String Db :=
  match getDb db? with
  | none => .error "Database not available"
  | some db =>
    .ok { db with
      quests := db.quests.map fun q =>
        if q.id == id then
          { q with
            status := status
            solvedAnswerId := solvedAnswerId
            solverUserId := solverUserId
            closedAt := some now
            updatedAt := now }
        else q }

/-! ## Favorites and reports (src/server/db.ts lines 565-661) -/

/-- The joined row returned by `getUserFavorites`. -/
structure UserFavoriteRow where
  id : Nat
  caseStudyId : Nat
  createdAt : Nat
  caseStudy : CaseStudyRow
deriving Repr, DecidableEq

/-- List a user's favorites (src/server/db.ts `getUserFavorites`),
inner-joined with the case-study row and ordered by the favorite's
creation time. -/
def getUserFavorites (db? : Option Db) (userId : Nat) : List UserFavoriteRow :=
  match getDb db? with
  | none => []
  | some db =>
    let favs := db.favorites.filter (fun f => f.userId == userId)
    let sorted := orderBy (fun a b => decide (a.createdAt ≤ b.createdAt)) favs
    sorted.filterMap fun f =>
      (db.caseStudies.find? (fun c => c.id == f.caseStudyId)).map fun c =>
        { id := f.id, caseStudyId := f.caseStudyId, createdAt := f.createdAt
          caseStudy := c }

/-- List the ids of the case studies a user has reported
(src/server/db.ts `getUserReportedCaseStudyIds`). -/
def getUserReportedCaseStudyIds (db? : Option Db) (userId : Nat) : List Nat :=
  match getDb db? with
  | none => []
  | some db =>
    (db.reports.filter (fun r => r.userId == userId)).map ReportRow.caseStudyId

/-- Whether a (user, case study) favorite row exists (src/server/db.ts
`isFavorite`); `false` when the database is unavailable. -/
def isFavorite (db? : Option Db) (userId caseStudyId : Nat) : Bool :=
  match getDb db? with
  | none => false
  | some db =>
    db.favorites.any fun f =>
      f.userId == userId && f.caseStudyId == caseStudyId

/-- Insert a favorite row (src/server/db.ts `addFavorite`).  The
`favorites_user_case_unique` index makes a duplicate insert throw; that
error is caught and turned into the result `false`. -/
def addFavorite (db? : Option Db) (userId caseStudyId freshId now : Nat) :
    Except String (Bool × Db) :=
  match getDb db? with
  | none => .error "Database not available"
  | some db =>
    if db.favorites.any
        (fun f => f.userId == userId && f.caseStudyId == caseStudyId) then
      .ok (false, db)
    else
      .ok (true, { db with
        favorites := db.favorites ++
          [{ id := freshId, userId := userId, caseStudyId := caseStudyId
             createdAt := now }] })

/-- Insert a report row (src/server/db.ts `createReport`).  The
`reports_user_case_unique` index makes a duplicate insert throw; that error
is caught and the function returns `created = false`. -/
def createReport (db? : Option Db) (userId caseStudyId freshId now : Nat) :
    Except String (Bool × Db) :=
  match getDb db? with
  | none => .error "Database not available"
  | some db =>
    if db.reports.any
        (fun r => r.userId == userId && r.caseStudyId == caseStudyId) then
      .ok (false, db)
    else
      .ok (true, { db with
        reports := db.reports ++
          [{ id := freshId, userId := userId, caseStudyId := caseStudyId
             createdAt := now }] })

/-- Delete the favorite rows of a (user, case study) pair
(src/server/db.ts `removeFavorite`); the source returns the literal
`true`, the embedding also returns the new state. -/
def removeFavorite (db? : Option Db) (userId caseStudyId : Nat) :
    Except String (Bool × Db) :=
  match getDb db? with
  | none => .error "Database not available"
  | some db =>
    .ok (true, { db with
      favorites := db.favorites.filter fun f =>
        !(f.userId == userId && f.caseStudyId == caseStudyId) })

/-- Delete a case study and its dependent rows (src/server/db.ts
`deleteCaseStudy`): first every favorite of the case, then every report of
it, then the case-study row itself. -/
def deleteCaseStudy (db? : Option Db) (id : Nat) : Except String Db :=
  match getDb db? with
  | none => .error "Database not available"
  | some db =>
    .ok { db with
      favorites := db.favorites.filter (fun f => !(f.caseStudyId == id))
      reports := db.reports.filter (fun r => !(r.caseStudyId == id))
      caseStudies := db.caseStudies.filter (fun c => !(c.id == id)) }

/-! ## Quest-board client logic (src/unnamed/part_001 and
src/client/src/pages/Quest.tsx) -/

/-- The four-state quest status of the newer quest page
(src/unnamed/part_001 line 32). -/
inductive QuestStatus where
  | open | finished | suspended | unsolved
deriving Repr, DecidableEq

/-- A close outcome is any status but `open` (src/unnamed/part_001 line 33,
`QuestCloseOutcome = Exclude<QuestStatus, "open">`); the excluded `open`
case is ruled out here by a proof field-free three-constructor type. -/
inductive QuestCloseOutcome where
  | finished | suspended | unsolved
deriving Repr, DecidableEq

/-- The stored status string a close outcome writes. -/
def QuestCloseOutcome.statusString : QuestCloseOutcome → String
  | .finished => "finished"
  | .suspended => "suspended"
  | .unsolved => "unsolved"

/-- Normalize a stored quest status for display and filtering
(src/unnamed/part_001 `normalizeQuestStatus`): the four current values map
to themselves, the legacy `closed` and anything unrecognized (including
null/undefined) map to `unsolved`. -/
def normalizeQuestStatus (status : Option String) : QuestStatus :=
  if status == some "open" then .open
  else if status == some "finished" then .finished
  else if status == some "suspended" then .suspended
  else if status == some "unsolved" then .unsolved
  else if status == some "closed" then .unsolved
  else .unsolved

/-- The display string of a normalized status (used only to compare the
two client pages' treatment of stored values). -/
def QuestStatus.statusString : QuestStatus → String
  | .open => "open"
  | .finished => "finished"
  | .suspended => "suspended"
  | .unsolved => "unsolved"

/-- The legacy quest page's closed test (src/client/src/pages/Quest.tsx
line 74): `selectedQuest?.status === "closed"`. -/
def isSelectedQuestClosed (status : Option String) : Bool :=
  status == some "closed"

/-- The client-side guard of `handleConfirmCloseQuest`
(src/unnamed/part_001 lines 328-351): closing as finished with zero
answers, or without a selected solver comment, is rejected (`none`, no
mutation is sent); otherwise the mutation payload is produced, with the
solver answer id parsed from the select value only for the finished
outcome. -/
def handleConfirmCloseQuest (closeOutcome : QuestCloseOutcome)
    (answersLength : Nat) (selectedSolvedAnswerId : String) :
    Option (QuestCloseOutcome × Option Nat) :=
  if closeOutcome == .finished && answersLength == 0 then none
  else if closeOutcome == .finished && selectedSolvedAnswerId == "" then none
  else
    some (closeOutcome,
      if closeOutcome == .finished then selectedSolvedAnswerId.toNat? else none)

/-! ## RPC procedures

The typed RPC router module (`src/server/routers`, referenced from
`src/client/src/lib/quests.ts`) is not part of the provided source tree;
only its callers (the client pages) and the data-access functions it calls
are.  The three procedures the claims depend on are therefore modelled
from the spec (sections 4.2 and 4.3), on top of the `src/server/db.ts`
embeddings above. -/

/-- Modelled from the spec: the `caseStudies.toggleFavorite` RPC procedure
(missing `src/server/routers` module; spec section 4.2): "checks existing
favorite row; if present, deletes it; if absent, inserts it". -/
def toggleFavorite (db? : Option Db) (userId caseStudyId freshId now : Nat) :
    Except String Db :=
  if isFavorite db? userId caseStudyId then
    (removeFavorite db? userId caseStudyId).map fun p => p.2
  else
    (addFavorite db? userId caseStudyId freshId now).map fun p => p.2

/-- The outcome the report procedure gives the client
(`result.alreadyReported` is read in src/client/src/pages/Home.tsx). -/
inductive ReportOutcome where
  | reported | alreadyReported | ownPost | notFound
deriving Repr, DecidableEq

/-- Modelled from the spec: the `caseStudies.report` RPC procedure (missing
`src/server/routers` module; spec section 4.2): "one report per (user, case
study); reporting own post is rejected; repeat reports return an 'already
reported' signal rather than erroring", on top of `createReport`. -/
def reportProcedure (db? : Option Db) (callerId caseStudyId freshId now : Nat) :
    Except String (ReportOutcome × Db) :=
  match getDb db? with
  | none => .error "Database not available"
  | some db =>
    match db.caseStudies.find? (fun c => c.id == caseStudyId) with
    | none => .ok (.notFound, db)
    | some cs =>
      if cs.userId == callerId then .ok (.ownPost, db)
      else
        match createReport (some db) callerId caseStudyId freshId now with
        | .error e => .error e
        | .ok (created, db') =>
          .ok (if created then .reported else .alreadyReported, db')

/-- The outcome of the close procedure (`result.alreadyClosed` is read by
`closeQuestMutation` in src/unnamed/part_001 and
src/client/src/pages/Quest.tsx). -/
inductive CloseOutcomeResult where
  | closed | alreadyClosed | notFound | notOwner | invalidSolvedAnswer
deriving Repr, DecidableEq

/-- Modelled from the spec: the `quests.close` RPC procedure (missing
`src/server/routers` module; spec section 4.3): only the quest's author may
close; re-closing an already-terminal quest reports "already closed"
without re-transitioning; `finished` requires an existing answer belonging
to that quest, whose author becomes the solver user; closing is a single
transition performed by `closeQuest`, which sets status, solved-answer id,
solver-user id and closed-at. -/
def closeQuestProcedure (db? : Option Db) (callerId questId : Nat)
    (outcome : QuestCloseOutcome) (solvedAnswerId : Option Nat) (now : Nat) :
    Except String (CloseOutcomeResult × Db) :=
  match getDb db? with
  | none => .error "Database not available"
  | some db =>
    match db.quests.find? (fun q => q.id == questId) with
    | none => .ok (.notFound, db)
    | some q =>
      if callerId != q.userId then .ok (.notOwner, db)
      else if normalizeQuestStatus (some q.status) != .open then
        .ok (.alreadyClosed, db)
      else
        match outcome with
        | .finished =>
          match solvedAnswerId with
          | none => .ok (.invalidSolvedAnswer, db)
          | some aid =>
            match getQuestAnswerById (some db) aid with
            | none => .ok (.invalidSolvedAnswer, db)
            | some a =>
              if a.questId != q.id then .ok (.invalidSolvedAnswer, db)
              else
                match closeQuest (some db) questId
                    QuestCloseOutcome.finished.statusString
                    (some aid) (some a.userId) now with
                | .error e => .error e
                | .ok db' => .ok (.closed, db')
        | _ =>
          match closeQuest (some db) questId outcome.statusString
              none none now with
          | .error e => .error e
          | .ok db' => .ok (.closed, db')

/-! ## Helper observations -/

/-- Number of favorite rows of one (user, case study) pair; the
`favorites_user_case_unique` index keeps this at most 1 in any state the
store accepts. -/
def favPairCount (db : Db) (userId caseStudyId : Nat) : Nat :=
  (db.favorites.filter fun f =>
    f.userId == userId && f.caseStudyId == caseStudyId).length

/-- Number of report rows of one (user, case study) pair; the
`reports_user_case_unique` index keeps this at most 1 in any state the
store accepts. -/
def reportPairCount (db : Db) (userId caseStudyId : Nat) : Nat :=
  (db.reports.filter fun r =>
    r.userId == userId && r.caseStudyId == caseStudyId).length

/-- The role stored for an openId after an upsert result. -/
def storedRole (r : Except String (Option Db)) (openId : String) :
    Option String :=
  match r with
  | .ok (some db) => (db.users.find? (fun u => u.openId == openId)).map
      UserRow.role
  | _ => none

/-- The insert id a create result reports (0 on error, unreachable for an
initialized database). -/
def insertIdResult (r : Except String (Nat × Db)) : Nat :=
  match r with
  | .ok (i, _) => i
  | .error _ => 0

theorem ensureQuestTables_no_closed (db : Db) :
    ∀ q ∈ (ensureQuestTables db).quests, q.status ≠ "closed" := by
  intro q hq
  simp only [ensureQuestTables, List.mem_map] at hq
  rcases hq with ⟨q0, _, rfl⟩
  by_cases h : q0.status == "closed" <;> simp [h]
  intro hc
  exact h (by simp [hc])

/-! ## Claim theorems -/

/-- C5: after `deleteCaseStudy id`, no favorite row and no report row
referencing that case study remains and the case-study row itself is gone,
while rows of other case studies (and the user table) are untouched. -/
theorem deleteCaseStudy_removes_dependents (db : Db) (cid : Nat) :
    ∃ db', deleteCaseStudy (some db) cid = .ok db'
      ∧ (∀ f ∈ db'.favorites, f.caseStudyId ≠ cid)
      ∧ (∀ r ∈ db'.reports, r.caseStudyId ≠ cid)
      ∧ (∀ c ∈ db'.caseStudies, c.id ≠ cid)
      ∧ db'.favorites = db.favorites.filter (fun f => !(f.caseStudyId == cid))
      ∧ db'.reports = db.reports.filter (fun r => !(r.caseStudyId == cid))
      ∧ db'.caseStudies = db.caseStudies.filter (fun c => !(c.id == cid))
      ∧ db'.users = db.users := by
  refine ⟨_, rfl, ?_, ?_, ?_, rfl, rfl, rfl, rfl⟩
  · intro f hf
    have h := (List.mem_filter.mp hf).2
    simpa using h
  · intro r hr
    have h := (List.mem_filter.mp hr).2
    simpa using h
  · intro c hc
    have h := (List.mem_filter.mp hc).2
    simpa using h

/-- C8: every read operation of the data-access layer returns an empty
list, `false` or nothing when the database has not been initialized, and
does not fail. -/
theorem reads_degrade_when_uninitialized (openId : String)
    (uid cid qid aid : Nat) :
    getAllCaseStudies none = []
      ∧ getAllQuests none = []
      ∧ getQuestAnswers none qid = []
      ∧ getUserCaseStudies none uid = []
      ∧ getUserFavorites none uid = []
      ∧ getUserReportedCaseStudyIds none uid = []
      ∧ isFavorite none uid cid = false
      ∧ getUserByOpenId none openId = none
      ∧ getUserPublicById none uid = none
      ∧ getCaseStudyById none cid = none
      ∧ getQuestById none qid = none
      ∧ getQuestAnswerById none aid = none :=
  ⟨rfl, rfl, rfl, rfl, rfl, rfl, rfl, rfl, rfl, rfl, rfl, rfl⟩

/-- C6: the read path rewrites the legacy stored status `closed` to
`unsolved`: listing a database is the same as listing it with every
`closed` replaced by `unsolved`, no listed row still carries `closed`,
the client normalizer sends `closed` and `unsolved` to the same value,
and the legacy page's closed test cannot distinguish a stored `closed`
from a stored `unsolved` on anything the read path returns. -/
theorem legacy_closed_status_normalized (db : Db) :
    getAllQuests (some db)
        = getAllQuests (some { db with
            quests := db.quests.map fun q =>
              if q.status == "closed" then { q with status := "unsolved" }
              else q })
      ∧ (∀ row ∈ getAllQuests (some db), row.quest.status ≠ "closed")
      ∧ normalizeQuestStatus (some "closed")
          = normalizeQuestStatus (some "unsolved")
      ∧ normalizeQuestStatus (some "closed") = QuestStatus.unsolved
      ∧ ∀ row ∈ getAllQuests (some db),
          isSelectedQuestClosed (some row.quest.status)
            = isSelectedQuestClosed (some "unsolved") := by
  have hrows : ∀ row ∈ getAllQuests (some db), row.quest.status ≠ "closed" := by
    intro row hrow
    simp only [getAllQuests, getDb, List.mem_map] at hrow
    rcases hrow with ⟨q, hq, rfl⟩
    have hq' : q ∈ (ensureQuestTables db).quests :=
      (perm_orderBy _ _).mem_iff.mp hq
    exact ensureQuestTables_no_closed db q hq'
  refine ⟨?_, hrows, by decide, by decide, ?_⟩
  · have key : ensureQuestTables { db with
        quests := db.quests.map fun q =>
          if q.status == "closed" then { q with status := "unsolved" }
          else q } = ensureQuestTables db := ensureQuestTables_idem db
    simp only [getAllQuests, getDb, key]
  · intro row hrow
    have h := hrows row hrow
    simp [isSelectedQuestClosed, h]

/-- C7: `getAllQuests` lists quests by creation time descending,
`getQuestAnswers` lists the given quest's answers by creation time
ascending, and each answer row carries the author's name and avatar from
the left join (null when the author row is missing, since a failed lookup
binds to nothing). -/
theorem quest_listings_ordered_and_joined (db : Db) (qid : Nat) :
    (getAllQuests (some db)).Pairwise
        (fun a b => b.quest.createdAt ≤ a.quest.createdAt)
      ∧ (getQuestAnswers (some db) qid).Pairwise
          (fun a b => a.createdAt ≤ b.createdAt)
      ∧ ∀ row ∈ getQuestAnswers (some db) qid,
          row.questId = qid
            ∧ row.authorName
                = (db.users.find? (fun u => u.id == row.userId)).bind
                    UserRow.name
            ∧ row.authorAvatarUrl
                = (db.users.find? (fun u => u.id == row.userId)).bind
                    UserRow.avatarUrl := by
  refine ⟨?_, ?_, ?_⟩
  · have hp := pairwise_orderBy
      (fun (a b : QuestRow) => decide (b.createdAt ≤ a.createdAt))
      (fun a b => by simpa using Nat.le_total b.createdAt a.createdAt)
      (fun a b c hab hbc => by
        simp only [decide_eq_true_eq] at hab hbc ⊢
        exact le_trans hbc hab)
      (ensureQuestTables db).quests
    simp only [getAllQuests, getDb]
    exact List.Pairwise.map _ (fun a b h => by simpa using h) hp
  · have hp := pairwise_orderBy
      (fun (a b : QuestAnswerRow) => decide (a.createdAt ≤ b.createdAt))
      (fun a b => by simpa using Nat.le_total a.createdAt b.createdAt)
      (fun a b c hab hbc => by
        simp only [decide_eq_true_eq] at hab hbc ⊢
        exact le_trans hab hbc)
      ((ensureQuestTables db).questAnswers.filter
        (fun a => a.questId == qid))
    simp only [getQuestAnswers, getDb]
    exact List.Pairwise.map _ (fun a b h => by simpa using h) hp
  · intro row hrow
    simp only [getQuestAnswers, getDb, List.mem_map] at hrow
    rcases hrow with ⟨a, ha, rfl⟩
    have ha' := (perm_orderBy _ _).mem_iff.mp ha
    have hq := (List.mem_filter.mp ha').2
    exact ⟨by simpa using hq, rfl, rfl⟩

theorem filter_of_any_false {α : Type} (p : α → Bool) (l : List α)
    (h : l.any p = false) : l.filter p = [] := by
  induction l with
  | nil => rfl
  | cons a l ih =>
    simp only [List.any_cons, Bool.or_eq_false_iff] at h
    simp [List.filter_cons, h.1, ih h.2]

theorem any_filter_not {α : Type} (p : α → Bool) (l : List α) :
    (l.filter fun a => !(p a)).any p = false := by
  induction l with
  | nil => rfl
  | cons a l ih => by_cases h : p a <;> simp [List.filter_cons, h, ih]

theorem filter_filter_not {α : Type} (p : α → Bool) (l : List α) :
    ((l.filter fun a => !(p a)).filter p) = [] :=
  filter_of_any_false p _ (any_filter_not p l)

theorem isFavorite_state (db : Db) (u c : Nat)
    (h0 : ensureQuestTables db = db) :
    isFavorite (some db) u c
      = db.favorites.any (fun f => f.userId == u && f.caseStudyId == c) := by
  simp [isFavorite, getDb, h0]

theorem addFavorite_state (db : Db) (u c i n : Nat)
    (h0 : ensureQuestTables db = db)
    (h : db.favorites.any (fun f => f.userId == u && f.caseStudyId == c)
        = false) :
    addFavorite (some db) u c i n
      = .ok (true, { db with favorites := db.favorites ++ [⟨i, u, c, n⟩] }) := by
  simp [addFavorite, getDb, h0, h]

theorem removeFavorite_state (db : Db) (u c : Nat)
    (h0 : ensureQuestTables db = db) :
    removeFavorite (some db) u c
      = .ok (true, { db with
          favorites := db.favorites.filter fun f =>
            !(f.userId == u && f.caseStudyId == c) }) := by
  simp [removeFavorite, getDb, h0]

/-- Abbreviation for a favorites row, used to state the toggle theorem. -/
def favRow (i u c n : Nat) : FavoriteRow :=
  { id := i, userId := u, caseStudyId := c, createdAt := n }

/-- C3: toggling a favorite twice restores the favorites relation for that
(user, case study) pair, and starting from a state the unique index admits
(at most one row for the pair) there is at most one row for the pair at
every intermediate point; from an unfavorited start the pair ends
unfavorited with zero rows. -/
theorem toggleFavorite_twice_restores (db : Db) (u c id1 now1 id2 now2 : Nat)
    (h0 : ensureQuestTables db = db)
    (h1 : favPairCount db u c ≤ 1) :
    ∃ db1 db2,
      toggleFavorite (some db) u c id1 now1 = .ok db1
        ∧ toggleFavorite (some db1) u c id2 now2 = .ok db2
        ∧ isFavorite (some db2) u c = isFavorite (some db) u c
        ∧ favPairCount db1 u c ≤ 1
        ∧ favPairCount db2 u c ≤ 1
        ∧ (isFavorite (some db) u c = false → favPairCount db2 u c = 0) := by
  have hfav0 := isFavorite_state db u c h0
  cases hany : db.favorites.any
      (fun f => f.userId == u && f.caseStudyId == c) with
  | false =>
    -- not favorited: first toggle inserts, second toggle deletes again
    have hnil := filter_of_any_false _ _ hany
    have hf : isFavorite (some db) u c = false := by rw [hfav0, hany]
    have h0' : ensureQuestTables
        { db with favorites := db.favorites ++ [favRow id1 u c now1] }
        = { db with favorites := db.favorites ++ [favRow id1 u c now1] } := by
      rw [ensureQuestTables_set_favorites, h0]
    have hf1 : isFavorite
        (some { db with favorites := db.favorites ++ [favRow id1 u c now1] })
        u c = true := by
      rw [isFavorite_state _ u c h0']
      simp [favRow]
    have h0'' : ensureQuestTables { db with
        favorites := (db.favorites ++ [favRow id1 u c now1]).filter fun f =>
          !(f.userId == u && f.caseStudyId == c) }
        = { db with
          favorites := (db.favorites ++ [favRow id1 u c now1]).filter fun f =>
            !(f.userId == u && f.caseStudyId == c) } := by
      rw [ensureQuestTables_set_favorites, h0]
    refine ⟨{ db with favorites := db.favorites ++ [favRow id1 u c now1] },
      { db with
        favorites := (db.favorites ++ [favRow id1 u c now1]).filter fun f =>
          !(f.userId == u && f.caseStudyId == c) },
      ?_, ?_, ?_, ?_, ?_, ?_⟩
    · rw [toggleFavorite, hf, addFavorite_state db u c id1 now1 h0 hany]
      rfl
    · rw [toggleFavorite, hf1, removeFavorite_state _ u c h0']
      rfl
    · rw [hf, isFavorite_state _ u c h0'']
      exact any_filter_not _ _
    · simp [favPairCount, List.filter_append, hnil, favRow]
    · simp only [favPairCount, filter_filter_not, List.length_nil]
      exact Nat.zero_le 1
    · intro _
      simp only [favPairCount, filter_filter_not, List.length_nil]
  | true =>
    -- favorited: first toggle deletes, second toggle inserts again
    have hf : isFavorite (some db) u c = true := by rw [hfav0, hany]
    have h0' : ensureQuestTables { db with
        favorites := db.favorites.filter fun f =>
          !(f.userId == u && f.caseStudyId == c) }
        = { db with favorites := db.favorites.filter fun f =>
            !(f.userId == u && f.caseStudyId == c) } := by
      rw [ensureQuestTables_set_favorites, h0]
    have hany1 : ({ db with favorites := db.favorites.filter fun f =>
        !(f.userId == u && f.caseStudyId == c) } : Db).favorites.any
          (fun f => f.userId == u && f.caseStudyId == c) = false :=
      any_filter_not _ _
    have hf1 : isFavorite (some { db with
        favorites := db.favorites.filter fun f =>
          !(f.userId == u && f.caseStudyId == c) }) u c = false := by
      rw [isFavorite_state _ u c h0', hany1]
    have h0'' : ensureQuestTables { db with
        favorites := (db.favorites.filter fun f =>
          !(f.userId == u && f.caseStudyId == c)) ++ [favRow id2 u c now2] }
        = { db with
          favorites := (db.favorites.filter fun f =>
            !(f.userId == u && f.caseStudyId == c)) ++ [favRow id2 u c now2] } := by
      rw [ensureQuestTables_set_favorites, h0]
    refine ⟨{ db with
        favorites := db.favorites.filter fun f =>
          !(f.userId == u && f.caseStudyId == c) },
      { db with
        favorites := (db.favorites.filter fun f =>
          !(f.userId == u && f.caseStudyId == c)) ++ [favRow id2 u c now2] },
      ?_, ?_, ?_, ?_, ?_, ?_⟩
    · rw [toggleFavorite, hf, removeFavorite_state db u c h0]
      rfl
    · rw [toggleFavorite, hf1, addFavorite_state _ u c id2 now2 h0' hany1]
      rfl
    · rw [hf, isFavorite_state _ u c h0'']
      simp [favRow]
    · simp only [favPairCount, filter_filter_not, List.length_nil]
      exact Nat.zero_le 1
    · simp only [favPairCount, List.filter_append, filter_filter_not,
        List.nil_append]
      simp [favRow]
    · intro hcontra
      rw [hf] at hcontra
      exact absurd hcontra (by simp)

theorem any_false_of_filter_nil {α : Type} (p : α → Bool) (l : List α)
    (h : l.filter p = []) : l.any p = false := by
  induction l with
  | nil => rfl
  | cons a l ih =>
    by_cases hp : p a
    · simp [List.filter_cons, hp] at h
    · simp only [List.filter_cons, hp, if_false] at h
      simp [hp, ih h]

/-- Abbreviation for a reports row, used to state the report theorem. -/
def repRow (i u c n : Nat) : ReportRow :=
  { id := i, userId := u, caseStudyId := c, createdAt := n }

theorem createReport_state_new (db : Db) (u c i n : Nat)
    (h0 : ensureQuestTables db = db)
    (h : db.reports.any (fun r => r.userId == u && r.caseStudyId == c)
        = false) :
    createReport (some db) u c i n
      = .ok (true, { db with reports := db.reports ++ [repRow i u c n] }) := by
  simp [createReport, getDb, h0, h, repRow]

theorem createReport_state_dup (db : Db) (u c i n : Nat)
    (h0 : ensureQuestTables db = db)
    (h : db.reports.any (fun r => r.userId == u && r.caseStudyId == c)
        = true) :
    createReport (some db) u c i n = .ok (false, db) := by
  simp [createReport, getDb, h0, h]

/-- C4: for a case study not authored by the caller, the first report
creates exactly one report row, a second report by the same caller
returns the already-reported outcome without adding a row or failing, and
a report by the author of a case study is always rejected. -/
theorem reportProcedure_spec (db : Db) (cs : CaseStudyRow)
    (caller cid id1 now1 id2 now2 : Nat)
    (h0 : ensureQuestTables db = db)
    (hfind : db.caseStudies.find? (fun c => c.id == cid) = some cs)
    (hown : cs.userId ≠ caller)
    (hnone : reportPairCount db caller cid = 0) :
    ∃ db1,
      reportProcedure (some db) caller cid id1 now1 = .ok (.reported, db1)
        ∧ reportPairCount db1 caller cid = 1
        ∧ db1.reports.length = db.reports.length + 1
        ∧ reportProcedure (some db1) caller cid id2 now2
            = .ok (.alreadyReported, db1)
        ∧ (∀ (d : Db) (c2 : CaseStudyRow), ensureQuestTables d = d →
            d.caseStudies.find? (fun x => x.id == cid) = some c2 →
            c2.userId = caller →
            ∀ fid n2, reportProcedure (some d) caller cid fid n2
              = .ok (.ownPost, d)) := by
  have hbeq : (cs.userId == caller) = false := by
    simp [hown]
  have hany : db.reports.any
      (fun r => r.userId == caller && r.caseStudyId == cid) = false := by
    apply any_false_of_filter_nil
    have := hnone
    simp only [reportPairCount] at this
    exact List.length_eq_zero.mp this
  have hnil := filter_of_any_false _ _ hany
  have h0' : ensureQuestTables
      { db with reports := db.reports ++ [repRow id1 caller cid now1] }
      = { db with reports := db.reports ++ [repRow id1 caller cid now1] } := by
    rw [ensureQuestTables_set_reports, h0]
  have hany1 : ({ db with
      reports := db.reports ++ [repRow id1 caller cid now1] } : Db).reports.any
        (fun r => r.userId == caller && r.caseStudyId == cid) = true := by
    simp [repRow]
  refine ⟨{ db with reports := db.reports ++ [repRow id1 caller cid now1] },
    ?_, ?_, ?_, ?_, ?_⟩
  · simp [reportProcedure, getDb, h0, hfind, hbeq,
      createReport_state_new db caller cid id1 now1 h0 hany]
  · simp [reportPairCount, List.filter_append, hnil, repRow]
  · simp
  · simp [reportProcedure, getDb, h0', hfind, hbeq,
      createReport_state_dup _ caller cid id2 now2 h0' hany1]
  · intro d c2 h0d hfd hc2 fid n2
    have hbeq2 : (c2.userId == caller) = true := by simp [hc2]
    simp [reportProcedure, getDb, h0d, hfd, hbeq2]

/-- C2: closing an already-terminal quest again (by its author, for any
outcome and any solved-answer id) reports already-closed and leaves the
database — in particular the quest's status, solved-answer id and
solver-user id — exactly as it was. -/
theorem closeQuestProcedure_already_closed (db : Db) (q : QuestRow)
    (caller qid : Nat) (outcome : QuestCloseOutcome) (said : Option Nat)
    (now : Nat)
    (h0 : ensureQuestTables db = db)
    (hfind : db.quests.find? (fun x => x.id == qid) = some q)
    (howner : caller = q.userId)
    (hterm : normalizeQuestStatus (some q.status) ≠ QuestStatus.open) :
    closeQuestProcedure (some db) caller qid outcome said now
      = .ok (.alreadyClosed, db) := by
  have hbeq : (caller != q.userId) = false := by simp [howner]
  have hbeq2 : (normalizeQuestStatus (some q.status) != QuestStatus.open)
      = true := by simp [hterm]
  cases outcome <;> cases said <;>
    simp [closeQuestProcedure, getDb, h0, hfind, hbeq, hbeq2]

/-- Case analysis of the close procedure for the `finished` outcome: either
the request is rejected with the state unchanged, or the quest was found,
owned by the caller and open, and the supplied solved-answer id names an
answer of that quest. -/
theorem closeQuestProcedure_finished_cases (d : Db) (c q2 : Nat)
    (s : Option Nat) (n : Nat) (h0d : ensureQuestTables d = d) :
    (∃ r, closeQuestProcedure (some d) c q2 .finished s n = .ok (r, d)
        ∧ r ≠ CloseOutcomeResult.closed)
      ∨ (∃ q a aid, d.quests.find? (fun x => x.id == q2) = some q
          ∧ c = q.userId
          ∧ normalizeQuestStatus (some q.status) = QuestStatus.open
          ∧ s = some aid
          ∧ d.questAnswers.find? (fun x => x.id == aid) = some a
          ∧ a.questId = q.id) := by
  cases hfq : d.quests.find? (fun x => x.id == q2) with
  | none =>
    refine Or.inl ⟨.notFound, ?_, by simp⟩
    cases s <;> simp [closeQuestProcedure, getDb, h0d, hfq]
  | some q =>
    by_cases hcq : c = q.userId
    · have hbeq : (c != q.userId) = false := by simp [hcq]
      by_cases hopen : normalizeQuestStatus (some q.status) = QuestStatus.open
      · have hbeq2 : (normalizeQuestStatus (some q.status) != QuestStatus.open)
            = false := by rw [hopen]; rfl
        cases s with
        | none =>
          exact Or.inl ⟨.invalidSolvedAnswer,
            by simp [closeQuestProcedure, getDb, h0d, hfq, hbeq, hbeq2],
            by simp⟩
        | some aid =>
          cases hfa : d.questAnswers.find? (fun x => x.id == aid) with
          | none =>
            refine Or.inl ⟨.invalidSolvedAnswer, ?_, by simp⟩
            simp [closeQuestProcedure, getDb, h0d, hfq, hbeq, hbeq2,
              getQuestAnswerById, hfa]
          | some a =>
            by_cases haq : a.questId = q.id
            · refine Or.inr ⟨q, a, aid, ?_, ?_, ?_, ?_, ?_, ?_⟩
              · rfl
              · exact hcq
              · exact hopen
              · rfl
              · exact hfa
              · exact haq
            · have hbeq3 : (a.questId != q.id) = true := by simp [haq]
              refine Or.inl ⟨.invalidSolvedAnswer, ?_, by simp⟩
              simp [closeQuestProcedure, getDb, h0d, hfq, hbeq, hbeq2,
                getQuestAnswerById, hfa, hbeq3]
      · have hbeq2 : (normalizeQuestStatus (some q.status) != QuestStatus.open)
            = true := by simp [hopen]
        refine Or.inl ⟨.alreadyClosed, ?_, by simp⟩
        cases s <;> simp [closeQuestProcedure, getDb, h0d, hfq, hbeq, hbeq2]
    · have hbeq : (c != q.userId) = true := by simp [hcq]
      refine Or.inl ⟨.notOwner, ?_, by simp⟩
      cases s <;> simp [closeQuestProcedure, getDb, h0d, hfq, hbeq]

/-- C1: the close operation moves a quest to `finished` only from the
`open` state and only when the supplied solved-answer id names an existing
answer whose questId is the quest's id (so at least one answer exists);
when no answer of the quest matches the request — in particular when the
quest has zero answers — the close-as-finished request is rejected and the
state is unchanged, and the client guard does not even send a
close-as-finished mutation when zero answers are shown. -/
theorem closeQuest_finished_requires_answer (db : Db) (caller qid : Nat)
    (said : Option Nat) (now : Nat)
    (h0 : ensureQuestTables db = db)
    (hno : ∀ a ∈ db.questAnswers, a.questId ≠ qid) :
    (∃ r, closeQuestProcedure (some db) caller qid .finished said now
        = .ok (r, db)
        ∧ r ≠ CloseOutcomeResult.closed)
      ∧ (∀ (d : Db) (c q2 : Nat) (s : Option Nat) (n : Nat)
            (r : CloseOutcomeResult) (d' : Db),
          ensureQuestTables d = d →
          closeQuestProcedure (some d) c q2 .finished s n = .ok (r, d') →
          r = CloseOutcomeResult.closed →
          ∃ a ∈ d.questAnswers, a.questId = q2 ∧ s = some a.id
            ∧ ∃ qq ∈ d.quests, qq.id = q2
                ∧ normalizeQuestStatus (some qq.status) = QuestStatus.open)
      ∧ (∀ s2, handleConfirmCloseQuest .finished 0 s2 = none) := by
  refine ⟨?_, ?_, ?_⟩
  · rcases closeQuestProcedure_finished_cases db caller qid said now h0 with
      ⟨r, heq, hr⟩ | ⟨q, a, aid, hfq, _, _, hs, hfa, haq⟩
    · exact ⟨r, heq, hr⟩
    · exfalso
      have hmem := List.mem_of_find?_eq_some hfa
      have hqid : q.id = qid := by simpa using List.find?_some hfq
      exact hno a hmem (haq.trans hqid)
  · intro d c q2 s n r d' h0d heq hr
    rcases closeQuestProcedure_finished_cases d c q2 s n h0d with
      ⟨r0, heq0, hr0⟩ | ⟨q, a, aid, hfq, hc, hopen, hs, hfa, haq⟩
    · rw [heq0] at heq
      have hpair : r0 = r ∧ d = d' := by
        simpa using heq
      exact absurd (hpair.1.trans hr) hr0
    · have hqid2 : q.id = q2 := by simpa using List.find?_some hfq
      have haidid : a.id = aid := by simpa using List.find?_some hfa
      refine ⟨a, List.mem_of_find?_eq_some hfa, haq.trans hqid2, ?_,
        q, List.mem_of_find?_eq_some hfq, hqid2, hopen⟩
      rw [hs, haidid]
  · intro s2
    rfl

theorem find?_append_of_none {α : Type} (p : α → Bool) (l1 l2 : List α)
    (h : l1.find? p = none) : (l1 ++ l2).find? p = l2.find? p := by
  induction l1 with
  | nil => rfl
  | cons a l ih =>
    cases hpa : p a with
    | true => rw [List.find?_cons_of_pos _ hpa] at h; cases h
    | false =>
      rw [List.find?_cons_of_neg _ (by simp [hpa])] at h
      rw [List.cons_append, List.find?_cons_of_neg _ (by simp [hpa])]
      exact ih h

theorem find?_map_of_pred {α : Type} (p : α → Bool) (g : α → α)
    (hg : ∀ a, p (g a) = p a) (l : List α) :
    (l.map g).find? p = (l.find? p).map g := by
  induction l with
  | nil => rfl
  | cons a l ih =>
    cases hpa : p a with
    | true =>
      rw [List.map_cons, List.find?_cons_of_pos _ (by rw [hg, hpa]),
        List.find?_cons_of_pos _ hpa]
      rfl
    | false =>
      rw [List.map_cons, List.find?_cons_of_neg _ (by simp [hg, hpa]),
        List.find?_cons_of_neg _ (by simp [hpa]), ih]

theorem find?_comp_openId {g : UserRow → UserRow}
    (hg : ∀ a, (g a).openId = a.openId) (oid : String) (l : List UserRow) :
    l.find? ((fun v => v.openId == oid) ∘ g)
      = l.find? (fun v => v.openId == oid) := by
  induction l with
  | nil => rfl
  | cons a l ih =>
    cases hpa : (a.openId == oid) with
    | true =>
      rw [@List.find?_cons_of_pos _ ((fun v => v.openId == oid) ∘ g) a l
          (by simp [Function.comp, hg, hpa]),
        @List.find?_cons_of_pos _ (fun v => v.openId == oid) a l hpa]
    | false =>
      rw [List.find?_cons_of_neg _ (by simp [Function.comp, hg, hpa]),
        List.find?_cons_of_neg _ (by simp [hpa]), ih]

/-- C9 (amended): when no role is explicitly supplied, an upsert of an
openId in the owner allow-list stores role `admin` (on insert and on
update); an upsert of an openId outside the allow-list stores the column
default `user` for a new identity and leaves an existing identity's stored
role unchanged. -/
theorem upsertUser_role_spec (ids sid : String) (db : Db) (user : InsertUser)
    (now freshId dbNow : Nat)
    (h0 : ensureQuestTables db = db)
    (hOpen : user.openId ≠ "")
    (hRole : user.role = none) :
    ((ownerOpenIds ids sid).contains user.openId = true →
        storedRole (upsertUser ids sid (some db) user now freshId dbNow)
          user.openId = some "admin")
      ∧ ((ownerOpenIds ids sid).contains user.openId = false →
          (db.users.find? (fun u => u.openId == user.openId) = none →
            storedRole (upsertUser ids sid (some db) user now freshId dbNow)
              user.openId = some "user")
          ∧ ∀ u, db.users.find? (fun u2 => u2.openId == user.openId) = some u →
              storedRole (upsertUser ids sid (some db) user now freshId dbNow)
                user.openId = some u.role) := by
  have hne : (user.openId == "") = false := by simp [hOpen]
  refine ⟨?_, ?_⟩
  · intro hc
    have hcmem : user.openId ∈ ownerOpenIds ids sid := by simpa using hc
    cases hfind : db.users.find? (fun u => u.openId == user.openId) with
    | none =>
      have hany : db.users.any (fun u => u.openId == user.openId) = false := by
        rw [List.any_eq_false]
        intro x hx
        exact List.find?_eq_none.mp hfind x hx
      simp [upsertUser, getDb, h0, hne, hRole, hc, hany, storedRole,
        find?_append_of_none _ _ _ hfind, hfind, hcmem]
    | some u =>
      have hmem := List.mem_of_find?_eq_some hfind
      have hpu := List.find?_some hfind
      have hpu' : u.openId = user.openId := by simpa using hpu
      have hany : db.users.any (fun v => v.openId == user.openId) = true := by
        rw [List.any_eq_true]
        exact ⟨u, hmem, hpu⟩
      simp only [upsertUser, getDb, h0, hne, hRole, hc, hany, storedRole]
      simp [List.find?_map, hcmem]
      refine ⟨u, ?_, ?_⟩
      · exact (find?_comp_openId
          (fun a => by split <;> (try split) <;> rfl)
          user.openId db.users).trans hfind
      · simp [hpu', hcmem]
  · intro hc
    have hnmem : user.openId ∉ ownerOpenIds ids sid := by simpa using hc
    constructor
    · intro hfind
      have hany : db.users.any (fun u => u.openId == user.openId) = false := by
        rw [List.any_eq_false]
        intro x hx
        exact List.find?_eq_none.mp hfind x hx
      simp [upsertUser, getDb, h0, hne, hRole, hc, hany, storedRole,
        find?_append_of_none _ _ _ hfind, hfind, hnmem]
    · intro u hfind
      have hmem := List.mem_of_find?_eq_some hfind
      have hpu := List.find?_some hfind
      have hpu' : u.openId = user.openId := by simpa using hpu
      have hany : db.users.any (fun v => v.openId == user.openId) = true := by
        rw [List.any_eq_true]
        exact ⟨u, hmem, hpu⟩
      simp only [upsertUser, getDb, h0, hne, hRole, hc, hany, storedRole]
      simp [List.find?_map, hnmem]
      refine ⟨u, ?_, ?_⟩
      · exact (find?_comp_openId
          (fun a => by split <;> (try split) <;> rfl)
          user.openId db.users).trans hfind
      · simp [hpu', hnmem]
        split <;> rfl

/-- An empty store. -/
def emptyDb : Db :=
  { users := [], caseStudies := [], favorites := [], reports := [],
    quests := [], questAnswers := [] }

/-- A store holding one user whose role is already `admin` although the
openId "x" is in no allow-list (for example because an earlier upsert
supplied the role explicitly). -/
def adminDb : Db :=
  { emptyDb with
    users := [{ id := 1, openId := "x", name := none, email := none,
                avatarUrl := none, loginMethod := none, role := "admin",
                createdAt := 0, updatedAt := 0, lastSignedIn := 0 }] }

/-- C9 counterexample: with an empty allow-list, upserting the existing
identity "x" without a role leaves its stored role `admin`, not the
default `user`; and with "y" in the allow-list, upserting a fresh identity
"y" with the role explicitly supplied as `user` stores `user`, not
`admin`. -/
theorem upsertUser_role_claim_counterexample :
    storedRole (upsertUser "" "" (some adminDb) { openId := "x" } 5 9 7) "x"
        = some "admin"
      ∧ storedRole (upsertUser "" "" (some adminDb) { openId := "x" } 5 9 7) "x"
        ≠ some "user"
      ∧ (ownerOpenIds "y" "").contains "y" = true
      ∧ storedRole (upsertUser "y" "" (some emptyDb)
          { openId := "y", role := some "user" } 5 9 7) "y" = some "user"
      ∧ (some "user" : Option String) ≠ some "admin" := by
  refine ⟨by decide, by decide, by decide, by decide, by decide⟩

/-- The head of a descending `orderBy` (SQL `ORDER BY key DESC LIMIT 1`)
is a member of the list with a maximal key. -/
theorem orderBy_desc_head_max {α : Type} (key : α → Nat) (l : List α)
    (x : α) (t : List α)
    (hsort : orderBy (fun a b => decide (key b ≤ key a)) l = x :: t) :
    x ∈ l ∧ ∀ y ∈ l, key y ≤ key x := by
  have hperm := perm_orderBy (fun a b => decide (key b ≤ key a)) l
  rw [hsort] at hperm
  refine ⟨hperm.mem_iff.mp (List.mem_cons_self x t), ?_⟩
  intro y hy
  have h := head_orderBy_le (fun a b => decide (key b ≤ key a))
    (fun a b => by simpa using Nat.le_total (key b) (key a))
    (fun a b c hab hbc => by
      simp only [decide_eq_true_eq] at hab hbc ⊢
      exact le_trans hbc hab)
    (fun a => by simp)
    l x t hsort y hy
  simpa using h

/-- A user-7 case-study insert carrying an explicit creation time. -/
def tieInsert : InsertCaseStudy :=
  { userId := 7, title := "t", description := "d", category := "prompt",
    tools := "[]", challenge := "c", solution := "s", steps := "[]",
    tags := "[]", createdAt := some 100 }

/-- A store already holding a user-7 case study (id 1) with the same
creation time the next insert will carry. -/
def tieDb : Db :=
  { emptyDb with caseStudies := [caseStudyRowOfInsert tieInsert 1 100] }

/-- A user-7 quest insert carrying an explicit creation time. -/
def tieQuestInsert : InsertQuest :=
  { userId := 7, title := "t", content := "c", createdAt := some 100 }

/-- A store already holding a user-7 quest (id 1) with the same creation
time the next insert will carry. -/
def tieQuestDb : Db :=
  { emptyDb with quests := [questRowOfInsert tieQuestInsert 1 100] }

/-- C10: `createCaseStudy` (and likewise `createQuest`) does not report
the id of the inserted row; it reports the id of a same-user row whose
`createdAt` is maximal at lookup time.  On the concrete tied state
(`tieDb` / `tieQuestDb`, where an existing same-user row shares the new
row's `createdAt`), the reported id is 1 — the pre-existing row — and not
2, the id of the row that was just inserted. -/
theorem create_insertId_is_latest_of_user (db : Db) (data : InsertCaseStudy)
    (qdata : InsertQuest) (freshId dbNow : Nat)
    (h0 : ensureQuestTables db = db) :
    (∃ insertId db',
        createCaseStudy (some db) data freshId dbNow = .ok (insertId, db')
          ∧ db'.caseStudies
              = db.caseStudies ++ [caseStudyRowOfInsert data freshId dbNow]
          ∧ ∃ r ∈ db'.caseStudies, r.userId = data.userId ∧ insertId = r.id
              ∧ ∀ r2 ∈ db'.caseStudies, r2.userId = data.userId →
                  r2.createdAt ≤ r.createdAt)
      ∧ (∃ insertId db',
          createQuest (some db) qdata freshId dbNow = .ok (insertId, db')
            ∧ db'.quests = db.quests ++ [questRowOfInsert qdata freshId dbNow]
            ∧ ∃ r ∈ db'.quests, r.userId = qdata.userId ∧ insertId = r.id
                ∧ ∀ r2 ∈ db'.quests, r2.userId = qdata.userId →
                    r2.createdAt ≤ r.createdAt)
      ∧ insertIdResult (createCaseStudy (some tieDb) tieInsert 2 200) = 1
      ∧ insertIdResult (createCaseStudy (some tieDb) tieInsert 2 200) ≠ 2
      ∧ insertIdResult (createQuest (some tieQuestDb) tieQuestInsert 2 200) = 1
      ∧ insertIdResult (createQuest (some tieQuestDb) tieQuestInsert 2 200)
          ≠ 2 := by
  refine ⟨?_, ?_, by decide, by decide, by decide, by decide⟩
  · cases horder : orderBy
        (fun a b : CaseStudyRow => decide (b.createdAt ≤ a.createdAt))
        ((db.caseStudies ++ [caseStudyRowOfInsert data freshId dbNow]).filter
          (fun c => c.userId == data.userId)) with
    | nil =>
      exfalso
      have hrow : caseStudyRowOfInsert data freshId dbNow
          ∈ (db.caseStudies ++ [caseStudyRowOfInsert data freshId dbNow]).filter
            (fun c => c.userId == data.userId) :=
        List.mem_filter.mpr ⟨by simp, by simp [caseStudyRowOfInsert]⟩
      have hperm := perm_orderBy
        (fun a b : CaseStudyRow => decide (b.createdAt ≤ a.createdAt))
        ((db.caseStudies ++ [caseStudyRowOfInsert data freshId dbNow]).filter
          (fun c => c.userId == data.userId))
      rw [horder] at hperm
      exact List.not_mem_nil _ (hperm.symm.mem_iff.mp hrow)
    | cons r t =>
      have hmax := orderBy_desc_head_max CaseStudyRow.createdAt _ r t horder
      have hrf := List.mem_filter.mp hmax.1
      refine ⟨r.id,
        { db with caseStudies :=
            db.caseStudies ++ [caseStudyRowOfInsert data freshId dbNow] },
        ?_, rfl, r, hrf.1, by simpa using hrf.2, rfl, ?_⟩
      · simp only [createCaseStudy, getDb, h0]
        rw [horder]
      · intro r2 hr2 hu2
        exact hmax.2 r2 (List.mem_filter.mpr ⟨hr2, by simp [hu2]⟩)
  · cases horder : orderBy
        (fun a b : QuestRow => decide (b.createdAt ≤ a.createdAt))
        ((db.quests ++ [questRowOfInsert qdata freshId dbNow]).filter
          (fun q => q.userId == qdata.userId)) with
    | nil =>
      exfalso
      have hrow : questRowOfInsert qdata freshId dbNow
          ∈ (db.quests ++ [questRowOfInsert qdata freshId dbNow]).filter
            (fun q => q.userId == qdata.userId) :=
        List.mem_filter.mpr ⟨by simp, by simp [questRowOfInsert]⟩
      have hperm := perm_orderBy
        (fun a b : QuestRow => decide (b.createdAt ≤ a.createdAt))
        ((db.quests ++ [questRowOfInsert qdata freshId dbNow]).filter
          (fun q => q.userId == qdata.userId))
      rw [horder] at hperm
      exact List.not_mem_nil _ (hperm.symm.mem_iff.mp hrow)
    | cons r t =>
      have hmax := orderBy_desc_head_max QuestRow.createdAt _ r t horder
      have hrf := List.mem_filter.mp hmax.1
      refine ⟨r.id,
        { db with quests :=
            db.quests ++ [questRowOfInsert qdata freshId dbNow] },
        ?_, rfl, r, hrf.1, by simpa using hrf.2, rfl, ?_⟩
      · simp only [createQuest, getDb, h0]
        rw [horder]
      · intro r2 hr2 hu2
        exact hmax.2 r2 (List.mem_filter.mpr ⟨hr2, by simp [hu2]⟩)

/-! ## Witnesses: the claim theorems above applied at concrete inputs -/

/-- A store holding one already-finished quest. -/
def closedQuestDb : Db :=
  { emptyDb with
    quests := [{ id := 1, userId := 2, title := "t", content := "c",
                 status := "finished", solvedAnswerId := none,
                 solverUserId := none, createdAt := 0, updatedAt := 0,
                 closedAt := some 0 }] }

theorem closeQuest_finished_requires_answer_witness :
    (∃ r, closeQuestProcedure (some emptyDb) 1 1 .finished none 0
        = .ok (r, emptyDb)
        ∧ r ≠ CloseOutcomeResult.closed)
      ∧ (∀ (d : Db) (c q2 : Nat) (s : Option Nat) (n : Nat)
            (r : CloseOutcomeResult) (d' : Db),
          ensureQuestTables d = d →
          closeQuestProcedure (some d) c q2 .finished s n = .ok (r, d') →
          r = CloseOutcomeResult.closed →
          ∃ a ∈ d.questAnswers, a.questId = q2 ∧ s = some a.id
            ∧ ∃ qq ∈ d.quests, qq.id = q2
                ∧ normalizeQuestStatus (some qq.status) = QuestStatus.open)
      ∧ (∀ s2, handleConfirmCloseQuest .finished 0 s2 = none) :=
  closeQuest_finished_requires_answer emptyDb 1 1 none 0 (by decide)
    (fun a ha => absurd ha (List.not_mem_nil a))

theorem closeQuestProcedure_already_closed_witness :
    closeQuestProcedure (some closedQuestDb) 2 1 .unsolved none 5
      = .ok (.alreadyClosed, closedQuestDb) :=
  closeQuestProcedure_already_closed closedQuestDb
    { id := 1, userId := 2, title := "t", content := "c",
      status := "finished", solvedAnswerId := none, solverUserId := none,
      createdAt := 0, updatedAt := 0, closedAt := some 0 }
    2 1 .unsolved none 5 (by decide) (by decide) rfl (by decide)

theorem toggleFavorite_twice_restores_witness :
    ∃ db1 db2,
      toggleFavorite (some emptyDb) 1 2 10 100 = .ok db1
        ∧ toggleFavorite (some db1) 1 2 11 101 = .ok db2
        ∧ isFavorite (some db2) 1 2 = isFavorite (some emptyDb) 1 2
        ∧ favPairCount db1 1 2 ≤ 1
        ∧ favPairCount db2 1 2 ≤ 1
        ∧ (isFavorite (some emptyDb) 1 2 = false → favPairCount db2 1 2 = 0) :=
  toggleFavorite_twice_restores emptyDb 1 2 10 100 11 101 (by decide)
    (by decide)

theorem reportProcedure_spec_witness :
    ∃ db1,
      reportProcedure (some tieDb) 3 1 50 500 = .ok (.reported, db1)
        ∧ reportPairCount db1 3 1 = 1
        ∧ db1.reports.length = tieDb.reports.length + 1
        ∧ reportProcedure (some db1) 3 1 51 501
            = .ok (.alreadyReported, db1)
        ∧ (∀ (d : Db) (c2 : CaseStudyRow), ensureQuestTables d = d →
            d.caseStudies.find? (fun x => x.id == 1) = some c2 →
            c2.userId = 3 →
            ∀ fid n2, reportProcedure (some d) 3 1 fid n2
              = .ok (.ownPost, d)) :=
  reportProcedure_spec tieDb (caseStudyRowOfInsert tieInsert 1 100)
    3 1 50 500 51 501 (by decide) rfl (by decide) (by decide)

theorem upsertUser_role_spec_witness :
    ((ownerOpenIds "y" "").contains "y" = true →
        storedRole (upsertUser "y" "" (some emptyDb)
          { openId := "y" } 5 9 7) "y" = some "admin")
      ∧ ((ownerOpenIds "y" "").contains "y" = false →
          (emptyDb.users.find? (fun u => u.openId == "y") = none →
            storedRole (upsertUser "y" "" (some emptyDb)
              { openId := "y" } 5 9 7) "y" = some "user")
          ∧ ∀ u, emptyDb.users.find? (fun u2 => u2.openId == "y") = some u →
              storedRole (upsertUser "y" "" (some emptyDb)
                { openId := "y" } 5 9 7) "y" = some u.role) :=
  upsertUser_role_spec "y" "" emptyDb { openId := "y" } 5 9 7 (by decide)
    (by decide) rfl

theorem create_insertId_is_latest_of_user_witness :
    (∃ insertId db',
        createCaseStudy (some emptyDb) tieInsert 3 300 = .ok (insertId, db')
          ∧ db'.caseStudies
              = emptyDb.caseStudies ++ [caseStudyRowOfInsert tieInsert 3 300]
          ∧ ∃ r ∈ db'.caseStudies, r.userId = tieInsert.userId
              ∧ insertId = r.id
              ∧ ∀ r2 ∈ db'.caseStudies, r2.userId = tieInsert.userId →
                  r2.createdAt ≤ r.createdAt)
      ∧ (∃ insertId db',
          createQuest (some emptyDb) tieQuestInsert 3 300
              = .ok (insertId, db')
            ∧ db'.quests
                = emptyDb.quests ++ [questRowOfInsert tieQuestInsert 3 300]
            ∧ ∃ r ∈ db'.quests, r.userId = tieQuestInsert.userId
                ∧ insertId = r.id
                ∧ ∀ r2 ∈ db'.quests, r2.userId = tieQuestInsert.userId →
                    r2.createdAt ≤ r.createdAt)
      ∧ insertIdResult (createCaseStudy (some tieDb) tieInsert 2 200) = 1
      ∧ insertIdResult (createCaseStudy (some tieDb) tieInsert 2 200) ≠ 2
      ∧ insertIdResult (createQuest (some tieQuestDb) tieQuestInsert 2 200) = 1
      ∧ insertIdResult (createQuest (some tieQuestDb) tieQuestInsert 2 200)
          ≠ 2 :=
  create_insertId_is_latest_of_user emptyDb tieInsert tieQuestInsert 3 300
    (by decide)
